import Mathlib

/-!
Verification development for the cf-mendix-buildpack custom HANA sidecar.

The development shallowly embeds the two source files:
  * `custom-sidecar/sidecar.py` — credential resolution from VCAP_SERVICES,
    the database probe (`get_data_from_db`), `log_data` and the main poll loop;
  * `buildpack/telemetry/metering.py` — enablement decision, sidecar bundle
    staging (`_copy_custom_sidecar` / `stage`), install verification
    (`_is_sidecar_installed`) and the run-phase supervisor (`run`).

Python exceptions are modelled as values of an `Exc` type; a computation that
may raise is an `Except Exc` value.  External effects (database queries,
filesystem state, spawned processes) are supplied by oracles / explicit state
so that every control path of the source is a total Lean function.
-/

/-- Python exception values relevant to the two source files.  All
constructors except `keyboardInterrupt` model subclasses of Python's
`Exception`; `keyboardInterrupt` models `KeyboardInterrupt`, which is a
`BaseException` and is NOT caught by `except Exception` clauses. -/
inductive Exc where
  | dbError (msg : String)
  | keyError (k : String)
  | valueError (msg : String)
  | typeError (msg : String)
  | otherExc (msg : String)
  | keyboardInterrupt
deriving DecidableEq

deriving instance DecidableEq for Except

/-- Whether the exception is caught by `except Exception` (every constructor
except `KeyboardInterrupt`; `dbapi.Error` is an `Exception` subclass). -/
def Exc.isException : Exc → Bool
  | .keyboardInterrupt => false
  | _ => true

/-- Whether the exception is caught by `except dbapi.Error`. -/
def Exc.isDbError : Exc → Bool
  | .dbError _ => true
  | _ => false

/-- JSON values as produced by `json.loads`.  Numeric values are modelled as
integers (the ports and credentials the sidecar reads are ints/strings). -/
inductive Json where
  | null
  | bool (b : Bool)
  | num (n : Int)
  | str (s : String)
  | arr (elems : List Json)
  | obj (fields : List (String × Json))

/-- First-match lookup in a JSON object's field list (Python dict access). -/
def lookupField : List (String × Json) → String → Option Json
  | [], _ => none
  | (k, v) :: rest, key => if k = key then some v else lookupField rest key

/-- Whether the first list is a prefix of the second (on characters). -/
def isPrefixList : List Char → List Char → Bool
  | [], _ => true
  | _ :: _, [] => false
  | a :: as, b :: bs => a = b && isPrefixList as bs

/-- Whether `pat` occurs as a contiguous sublist of `hay`. -/
def containsSub (pat : List Char) : List Char → Bool
  | [] => isPrefixList pat []
  | c :: cs => isPrefixList pat (c :: cs) || containsSub pat cs

/-- Substring test, modelling Python's `key in someString`. -/
def strContains (s pat : String) : Bool := containsSub pat.toList s.toList

/-- Python's `key in j` for a parsed JSON value: key membership for objects,
element equality for arrays, substring for strings.  For the remaining shapes
Python raises `TypeError`; at both call sites in the sources that exception is
caught and leads to the same observable outcome as a `false` result, so the
model returns `false` there. -/
def Json.hasKey : Json → String → Bool
  | .obj fields, k => (lookupField fields k).isSome
  | .arr elems, k =>
    elems.any (fun j => match j with | .str s => s = k | _ => false)
  | .str s, k => strContains s k
  | _, _ => false

/-- Python's `j[key]` subscript with a string key: object lookup (raising
`KeyError` when the key is absent), `TypeError` on every other shape. -/
def Json.getKey : Json → String → Except Exc Json
  | .obj fields, k =>
    match lookupField fields k with
    | some v => .ok v
    | none => .error (.keyError k)
  | _, _ => .error (.typeError "subscript")

/-- Python truthiness of a parsed JSON value. -/
def Json.truthy : Json → Bool
  | .null => false
  | .bool b => b
  | .num n => n ≠ 0
  | .str s => s ≠ ""
  | .arr es => ¬ es.isEmpty
  | .obj fs => ¬ fs.isEmpty

/-- Python's `j[0]`: first element of a list (`IndexError` when empty), first
character of a string, `KeyError` on an object (JSON objects have no key `0`),
`TypeError` on the remaining shapes. -/
def Json.index0 : Json → Except Exc Json
  | .arr (x :: _) => .ok x
  | .arr [] => .error (.otherExc "IndexError")
  | .str s => .ok (.str (s.take 1))
  | .obj _ => .error (.keyError "0")
  | _ => .error (.typeError "subscript")

/-- Decimal digits of a character list, `none` on any non-digit. -/
def digitsToNat (acc : Nat) : List Char → Option Nat
  | [] => some acc
  | c :: cs =>
    if c.isDigit then digitsToNat (acc * 10 + (c.toNat - 48)) cs
    else none

/-- Python's `int(someString)`: optional surrounding whitespace, optional
sign, decimal digits; `none` models the `ValueError` on anything else. -/
def parsePyInt (s : String) : Option Int :=
  let cs := (s.toList.dropWhile (· = ' ')).reverse.dropWhile (· = ' ') |>.reverse
  match cs with
  | '-' :: rest =>
    if rest.isEmpty then none else (digitsToNat 0 rest).map (fun n => -(n : Int))
  | '+' :: rest =>
    if rest.isEmpty then none else (digitsToNat 0 rest).map (fun n => (n : Int))
  | rest =>
    if rest.isEmpty then none else (digitsToNat 0 rest).map (fun n => (n : Int))

/-- Python's `int(x)` on a parsed JSON value: identity on ints, parse for
strings (`ValueError` when non-numeric), bool coercion, `TypeError` on the
remaining shapes. -/
def pyInt : Json → Except Exc Int
  | .num n => .ok n
  | .bool b => .ok (if b then 1 else 0)
  | .str s =>
    match parsePyInt s with
    | some n => .ok n
    | none => .error (.valueError s)
  | _ => .error (.typeError "int")

/-- The `connection_info` dict built by `fetch_vcap_services`. -/
structure ConnectionInfo where
  address : Json
  port : Int
  user : Json
  password : Json

/-- Outcome of `json.loads` on the VCAP_SERVICES environment variable:
either a `JSONDecodeError` or a parsed document. -/
inductive ParseOutcome where
  | malformed
  | parsed (j : Json)

/-- The body of `fetch_vcap_services` after `json.loads` succeeded, line by
line; any raised exception is a `.error` propagated to the handlers. -/
def fetchBody (j : Json) : Except Exc (Option ConnectionInfo) := do
  if j.hasKey "hana" = false then
    return none
  let dbArray ← j.getKey "hana"
  if dbArray.truthy = false then
    return none
  let first ← dbArray.index0
  let credentials ← first.getKey "credentials"
  let host ← credentials.getKey "host"
  let portJ ← credentials.getKey "port"
  let port ← pyInt portJ
  let user ← credentials.getKey "user"
  let password ← credentials.getKey "password"
  return some { address := host, port := port, user := user, password := password }

/-- The function `fetch_vcap_services` of sidecar.py.  The input models the VCAP_SERVICES
environment variable: `none` when the variable is unset, `some .malformed`
when `json.loads` raises, `some (.parsed j)` when it yields document `j`.
The `except json.JSONDecodeError` / `except KeyError` / `except Exception`
handlers all log and return `None`, so every raised exception maps to
`none`. -/
def fetch_vcap_services (vcapEnv : Option ParseOutcome) : Option ConnectionInfo :=
  match vcapEnv with
  | none => none
  | some ParseOutcome.malformed => none
  | some (ParseOutcome.parsed j) =>
    match fetchBody j with
    | .ok r => r
    | .error _ => none

/-- The concrete catalog from the specification scenario:
`{"hana":[{"credentials":{"host":"db.local","port":"30015","user":"u","password":"p"}}]}`. -/
def exampleCatalog : Json :=
  Json.obj [("hana", Json.arr [Json.obj [("credentials", Json.obj
    [("host", Json.str "db.local"), ("port", Json.str "30015"),
     ("user", Json.str "u"), ("password", Json.str "p")])]])]

/-- A catalog whose `hana` entry has exactly one binding whose credentials are
the given field list. -/
def oneBindingCatalog (fields : List (String × Json)) : Json :=
  Json.obj [("hana", Json.arr [Json.obj [("credentials", Json.obj fields)]])]

/-! ## Database probe and poll loop (sidecar.py) -/

/-- A fetched database row (one tuple of a `fetchall` result). -/
abbrev Row := List String

/-- Observable events of a sidecar run: what the source logs and the blocking
calls it makes.  `connClosed` is recorded when `conn.close()` is invoked in
the `finally` block (an exception raised by `close` itself is caught and
logged there, so the invocation is the event). -/
inductive Ev where
  | noConnInfoLogged
  | connFailLogged
  | noConnLogged
  | nsAttempted
  | variantTried (name : String)
  | dummyAttempted
  | connClosed
  | rowsLogged (n : Nat)
  | noDataLogged
  | errorLogged
  | sleptNormal
  | sleptBackoff
  | interrupted
deriving DecidableEq

/-- Oracle for one probe run: the environment variable, the outcome of
`dbapi.connect`, and the outcome (rows or raised exception) of each
`cursor.execute`+`fetchall` pair the probe can issue. -/
structure ProbeOracle where
  vcap : Option ParseOutcome
  connect : Except Exc Unit
  nsQuery : Except Exc (List Row)
  variantQuery : String → Except Exc (List Row)
  dummyQuery : Except Exc (List Row)

/-- The function `establish_connection` of sidecar.py: `except dbapi.Error` and
`except Exception` both log and return `None`; a `KeyboardInterrupt`
propagates. -/
def establish_connection (o : ProbeOracle) : Except Exc (Option Unit) × List Ev :=
  match o.connect with
  | .ok _ => (.ok (some ()), [])
  | .error e =>
    if e.isException then (.ok none, [Ev.connFailLogged]) else (.error e, [])

/-- The `table_variants` list of `get_data_from_db`, in source order. -/
def tableVariants : List String :=
  ["\"system$user\"", "SYSTEM$USER", "\"SYSTEM$USER\"", "system$user"]

/-- The `for table_name in table_variants` loop: each variant is queried in
order; on success the loop breaks with the fetched rows (`users_data`), a
`dbapi.Error` is logged and the loop continues, any other exception
propagates out of the loop.  When no variant succeeds, `users_data` is
still `[]`. -/
def tryVariants (o : ProbeOracle) : List String → Except Exc (List Row) × List Ev
  | [] => (.ok [], [])
  | v :: rest =>
    match o.variantQuery v with
    | .ok rows => (.ok rows, [Ev.variantTried v])
    | .error e =>
      if e.isDbError then
        let r := tryVariants o rest
        (r.1, Ev.variantTried v :: r.2)
      else (.error e, [Ev.variantTried v])

/-- The `try` body of `get_data_from_db` after the connection exists: the
namespace-discovery query over `TABLES`, then the variant loop, then the
`DUMMY` fallback when `users_data` is empty; `users_data` is returned. -/
def probeBody (o : ProbeOracle) : Except Exc (List Row) × List Ev :=
  match o.nsQuery with
  | .error e => (.error e, [Ev.nsAttempted])
  | .ok _tables =>
    let r := tryVariants o tableVariants
    match r.1 with
    | .error e => (.error e, Ev.nsAttempted :: r.2)
    | .ok rows =>
      if rows.isEmpty then
        match o.dummyQuery with
        | .ok _ => (.ok rows, Ev.nsAttempted :: r.2 ++ [Ev.dummyAttempted])
        | .error e => (.error e, Ev.nsAttempted :: r.2 ++ [Ev.dummyAttempted])
      else (.ok rows, Ev.nsAttempted :: r.2)

/-- The function `get_data_from_db` of sidecar.py.  Early returns when credential
resolution or the connection fail; otherwise the `try` body runs, the
`finally` block always invokes `conn.close()`, and the
`except dbapi.Error` / `except Exception` clauses turn a raised exception
into `[]`.  Only a `KeyboardInterrupt` can escape (after the `finally`). -/
def get_data_from_db (o : ProbeOracle) : Except Exc (List Row) × List Ev :=
  match fetch_vcap_services o.vcap with
  | none => (.ok [], [Ev.noConnInfoLogged])
  | some _ =>
    match establish_connection o with
    | (.error e, evs) => (.error e, evs)
    | (.ok none, evs) => (.ok [], evs ++ [Ev.noConnLogged])
    | (.ok (some _), evs) =>
      let b := probeBody o
      match b.1 with
      | .ok rows => (.ok rows, evs ++ b.2 ++ [Ev.connClosed])
      | .error e =>
        if e.isException then (.ok [], evs ++ b.2 ++ [Ev.connClosed])
        else (.error e, evs ++ b.2 ++ [Ev.connClosed])

/-- The table-name spellings attempted during a probe run, in order. -/
def variantAttempts (evs : List Ev) : List String :=
  evs.filterMap (fun e => match e with | Ev.variantTried v => some v | _ => none)

/-- The function `log_data` of sidecar.py: fetch, then log the row count or a no-data
warning; `except Exception` catches everything but `KeyboardInterrupt`. -/
def log_data (o : ProbeOracle) : Except Exc Unit × List Ev :=
  match get_data_from_db o with
  | (.ok rows, evs) =>
    if rows.isEmpty then (.ok (), evs ++ [Ev.noDataLogged])
    else (.ok (), evs ++ [Ev.rowsLogged rows.length])
  | (.error e, evs) =>
    if e.isException then (.ok (), evs ++ [Ev.errorLogged]) else (.error e, evs)

/-- One iteration body of `main`'s `while True` loop: `log_data()` followed by
`time.sleep(300)`; when `log_data` raises, the sleep is skipped and the
exception reaches the loop's handlers. -/
def iterationBody (o : ProbeOracle) : Except Exc Unit × List Ev :=
  match log_data o with
  | (.ok _, evs) => (.ok (), evs ++ [Ev.sleptNormal])
  | (.error e, evs) => (.error e, evs)

/-- The result of executing one iteration's body: normal completion or a
raised exception, with the events it produced. -/
abbrev IterResult := Except Exc Unit × List Ev

/-- The `while True` loop of sidecar.py's `main`, driven by the finite list of
iteration-body results to consume.  Returns (iterations executed, whether the
loop terminated via `break`, events).  `except KeyboardInterrupt` breaks;
`except Exception` logs, sleeps the 60-unit backoff, and continues. -/
def runMain : List IterResult → Nat × Bool × List Ev
  | [] => (0, false, [])
  | (r, evs) :: rest =>
    match r with
    | .ok _ =>
      let t := runMain rest
      (t.1 + 1, t.2.1, evs ++ t.2.2)
    | .error e =>
      if e = Exc.keyboardInterrupt then (1, true, evs ++ [Ev.interrupted])
      else
        let t := runMain rest
        (t.1 + 1, t.2.1, evs ++ [Ev.errorLogged, Ev.sleptBackoff] ++ t.2.2)

/-- The sidecar's composed poll loop: `main`'s loop with each iteration's
body being `log_data` + sleep, one probe oracle per iteration. -/
def runSidecar (os : List ProbeOracle) : Nat × Bool × List Ev :=
  runMain (os.map iterationBody)

/-! ## Enablement, staging and supervision (buildpack/telemetry/metering.py) -/

/-- The slice of the process environment the metering module consults:
the VCAP_SERVICES variable (with its parse outcome), MXUMS_LICENSESERVER_URL
and ENABLE_HANA_SIDECAR. -/
structure MeterEnv where
  vcap : Option ParseOutcome
  licenseUrl : Option String
  enableFlag : Option String

/-- The function `_is_usage_metering_enabled` of metering.py: true when VCAP_SERVICES
parses and contains `hana` (a parse error is caught and only logged), or
MXUMS_LICENSESERVER_URL is set, or ENABLE_HANA_SIDECAR is set — each checked
for presence only. -/
def _is_usage_metering_enabled (e : MeterEnv) : Bool :=
  (match e.vcap with
   | some (ParseOutcome.parsed j) => j.hasKey "hana"
   | _ => false)
  || e.licenseUrl.isSome
  || e.enableFlag.isSome

/-- One directory entry of the staged target (or of the source bundle): a
regular file with its byte content and permission mode, or a directory whose
whole recursive content is abstracted as an opaque payload (it is only ever
copied or removed wholesale by `shutil.copytree` / `shutil.rmtree`). -/
inductive Entry where
  | file (content : String) (mode : Nat)
  | dir (payload : String) (mode : Nat)
deriving DecidableEq

/-- The target directory `build_path/metering` as a map from entry name to
entry (absent names map to `none`). -/
def TargetDir := String → Option Entry

/-- Replace (or create) one entry of the target directory. -/
def setEntry (t : TargetDir) (name : String) (e : Entry) : TargetDir :=
  fun n => if n = name then some e else t n

/-- Whether an optional entry is an existing directory. -/
def isDirO : Option Entry → Bool
  | some (Entry.dir _ _) => true
  | _ => false

/-- Whether the entry name starts with a dot — hidden entries are skipped
by the copy loop. -/
def isHidden (name : String) : Bool := name.startsWith "."

/-- The names of the entry script and the derived config file. -/
def binaryName : String := "sidecar.py"

def confName : String := "conf.json"

/-- The `for item in source_contents` loop of `_copy_custom_sidecar`:
hidden entries are skipped; a source directory replaces any pre-existing
target entry (`rmtree` + `copytree`); a source file overwrites via `copy2`
(which preserves the source mode) — except that `copy2` onto an existing
target DIRECTORY raises, which the per-item handler catches and skips,
unless the item is `vendor`, in which case the whole copy aborts with
`False`.  Returns (success flag, resulting target, names written). -/
def copyItems : List (String × Entry) → TargetDir → Bool × TargetDir × List String
  | [], t => (true, t, [])
  | (name, e) :: rest, t =>
    if isHidden name then copyItems rest t
    else
      match e with
      | Entry.dir p m =>
        let r := copyItems rest (setEntry t name (Entry.dir p m))
        (r.1, r.2.1, name :: r.2.2)
      | Entry.file c m =>
        if isDirO (t name) then
          if name = "vendor" then (false, t, [])
          else copyItems rest t
        else
          let r := copyItems rest (setEntry t name (Entry.file c m))
          (r.1, r.2.1, name :: r.2.2)

/-- Effect of `os.chmod(sidecar_script, 0o755)` on an existing entry
(0o755 = 493); applied only when the entry exists. -/
def chmodEntry : Option Entry → Option Entry
  | some (Entry.file c _) => some (Entry.file c 493)
  | some (Entry.dir p _) => some (Entry.dir p 493)
  | none => none

/-- The post-copy chmod of the entry script, as a pointwise map update. -/
def chmodAt (t : TargetDir) : TargetDir :=
  fun n => if n = binaryName then chmodEntry (t n) else t n

/-- The JSON text `json.dump({"ProjectID": pid})` writes. -/
def confContent (pid : String) : String :=
  "\x7b\"ProjectID\": \"" ++ pid ++ "\"\x7d"

/-- Effect of `write_file` (an `open(..., "w")` + `json.dump`) on one entry:
overwrite a regular file's content keeping its mode, create a fresh file
(mode 0o644 = 420) when absent, and fail (entry unchanged — the raised
wrapper exception is caught by `stage`'s inner handler) when the path is an
existing directory. -/
def confEntry (pid : String) : Option Entry → Option Entry
  | some (Entry.dir p m) => some (Entry.dir p m)
  | some (Entry.file _ m) => some (Entry.file (confContent pid) m)
  | none => some (Entry.file (confContent pid) 420)

/-- The config write of `stage`, as a pointwise map update. -/
def confAt (pid : String) (t : TargetDir) : TargetDir :=
  fun n => if n = confName then confEntry pid (t n) else t n

/-- The function `_copy_custom_sidecar` of metering.py.  The source bundle is `none` when
`buildpack_dir/custom-sidecar` does not exist (logged, `False`), otherwise
its directory listing.  On a completed loop the entry script is made
executable when present and `True` is returned; a vendor copy failure inside
the loop returns `False` immediately (no chmod). -/
def _copy_custom_sidecar (src : Option (List (String × Entry))) (t : TargetDir) :
    Bool × TargetDir × List String :=
  match src with
  | none => (false, t, [])
  | some items =>
    let r := copyItems items t
    if r.1 then
      (true, chmodAt r.2.1,
        if (r.2.1 binaryName).isSome then r.2.2 ++ ["chmod"] else r.2.2)
    else (false, r.2.1, r.2.2)

/-- The function `stage` of metering.py, restricted to its effect on the target directory
`build_path/metering`.  `meta` models `_get_project_id` on
`build_path/model/metadata.json`: `some pid` when readable, `none` when any
exception was raised (caught by the inner handler, config skipped).  When
metering is not enabled, nothing is touched.  Returns the resulting target
and the list of writes performed. -/
def stage (e : MeterEnv) (src : Option (List (String × Entry)))
    (meta : Option String) (t : TargetDir) : TargetDir × List String :=
  if _is_usage_metering_enabled e then
    let r := _copy_custom_sidecar src t
    if r.1 then
      match meta with
      | some pid => (confAt pid r.2.1, r.2.2 ++ ["conf"])
      | none => (r.2.1, r.2.2)
    else (r.2.1, r.2.2)
  else (t, [])

/-- The runtime filesystem, abstracted as existence of paths
(`os.path.exists`). -/
def FS := String → Bool

/-- The two paths under SIDECAR_DIR that the install check consults. -/
def sidecarScriptPath : String := "/home/vcap/app/metering/sidecar.py"

def vendorDirPath : String := "/home/vcap/app/metering/vendor"

/-- The function `_is_sidecar_installed` of metering.py: true only when both the entry
script and the vendor directory exist (every other branch logs and falls
through to `return False`). -/
def _is_sidecar_installed (fs : FS) : Bool :=
  if fs sidecarScriptPath then
    if fs vendorDirPath then true
    else false
  else false

/-- The function `run` of metering.py, restricted to its spawn decision: the command of
the spawned process when both the (re-evaluated) enablement signal and the
install check hold, `none` otherwise (no process spawned). -/
def runPhase (e : MeterEnv) (fs : FS) : Option (List String) :=
  if _is_usage_metering_enabled e && _is_sidecar_installed fs then
    some ["python3", sidecarScriptPath]
  else none

/-- No recognized enablement signal is present: no `hana` kind inside a
parsed VCAP_SERVICES, no license-server URL variable, no override flag. -/
def noEnablementSignal (e : MeterEnv) : Prop :=
  (match e.vcap with
   | some (ParseOutcome.parsed j) => j.hasKey "hana"
   | _ => false) = false
  ∧ e.licenseUrl = none ∧ e.enableFlag = none

/-- A source-bundle listing has pairwise distinct entry names (as any
`os.listdir` result does). -/
def sourceNodup : Option (List (String × Entry)) → Prop
  | none => True
  | some items => (items.map Prod.fst).Nodup

/-! ## Claims -/

/-- C10: the enablement decision treats the override flag ENABLE_HANA_SIDECAR
as a pure presence signal — whenever the variable exists in the environment,
`_is_usage_metering_enabled` returns true regardless of its value. -/
theorem c10_flag_presence_enables (e : MeterEnv) (v : String)
    (h : e.enableFlag = some v) : _is_usage_metering_enabled e = true := by
  unfold _is_usage_metering_enabled
  rw [h]
  simp

/-- Witness for C10 at the value `"false"` (and implicitly any value): an
environment whose only signal is `ENABLE_HANA_SIDECAR="false"` enables. -/
theorem c10_witness :
    (MeterEnv.mk none none (some "false")).enableFlag = some "false" ∧
    _is_usage_metering_enabled (MeterEnv.mk none none (some "false")) = true :=
  ⟨rfl, c10_flag_presence_enables (MeterEnv.mk none none (some "false")) "false" rfl⟩

/-- C8: `_is_sidecar_installed` returns true iff the entry script exists and
the vendor directory exists; in particular, when the vendor directory is
missing it returns false and `run` spawns no process. -/
theorem c8_install_verifier (fs : FS) (e : MeterEnv)
    (h : fs vendorDirPath = false) :
    (∀ g : FS, _is_sidecar_installed g = (g sidecarScriptPath && g vendorDirPath)) ∧
    _is_sidecar_installed fs = false ∧ runPhase e fs = none := by
  have hiff : ∀ g : FS,
      _is_sidecar_installed g = (g sidecarScriptPath && g vendorDirPath) := by
    intro g
    unfold _is_sidecar_installed
    cases hs : g sidecarScriptPath <;> cases hv : g vendorDirPath <;> simp [hs, hv]
  have hfalse : _is_sidecar_installed fs = false := by
    rw [hiff fs, h]
    simp
  refine ⟨hiff, hfalse, ?_⟩
  unfold runPhase
  rw [hfalse]
  simp

/-- Witness for C8: a root where only the entry script exists. -/
theorem c8_witness :
    (fun p => decide (p = sidecarScriptPath) : FS) vendorDirPath = false ∧
    _is_sidecar_installed (fun p => decide (p = sidecarScriptPath)) = false ∧
    runPhase (MeterEnv.mk none none (some "1"))
      (fun p => decide (p = sidecarScriptPath)) = none := by
  have h : (fun p => decide (p = sidecarScriptPath) : FS) vendorDirPath = false := by
    decide
  exact ⟨h, (c8_install_verifier (fun p => decide (p = sidecarScriptPath))
    (MeterEnv.mk none none (some "1")) h).2⟩

/-- C7: in every environment lacking all recognized enablement signals,
`stage` performs no filesystem writes (the target is untouched and the write
trace is empty) and `run` spawns no process. -/
theorem c7_disabled_noop (e : MeterEnv) (src : Option (List (String × Entry)))
    (meta : Option String) (t : TargetDir) (fs : FS)
    (h : noEnablementSignal e) :
    stage e src meta t = (t, []) ∧ runPhase e fs = none := by
  obtain ⟨h1, h2, h3⟩ := h
  have henabled : _is_usage_metering_enabled e = false := by
    unfold _is_usage_metering_enabled
    rw [h1, h2, h3]
    simp
  constructor
  · unfold stage
    rw [henabled]
    simp
  · unfold runPhase
    rw [henabled]
    simp

/-- Witness for C7: VCAP_SERVICES present but malformed, no other variable,
an arbitrary source bundle and target. -/
theorem c7_witness :
    noEnablementSignal (MeterEnv.mk (some ParseOutcome.malformed) none none) ∧
    stage (MeterEnv.mk (some ParseOutcome.malformed) none none)
        (some [("sidecar.py", Entry.file "code" 420)]) (some "pid")
        (fun _ => none) = ((fun _ => none : TargetDir), []) ∧
    runPhase (MeterEnv.mk (some ParseOutcome.malformed) none none)
        (fun _ => true) = none := by
  have h : noEnablementSignal (MeterEnv.mk (some ParseOutcome.malformed) none none) :=
    ⟨rfl, rfl, rfl⟩
  exact ⟨h, c7_disabled_noop (MeterEnv.mk (some ParseOutcome.malformed) none none)
    (some [("sidecar.py", Entry.file "code" 420)]) (some "pid")
    (fun _ => none) (fun _ => true) h⟩

/-- A probe oracle for which everything succeeds: resolvable credentials,
a connection, a namespace listing, and a first table variant holding three
rows. -/
def goodOracle : ProbeOracle where
  vcap := some (ParseOutcome.parsed exampleCatalog)
  connect := .ok ()
  nsQuery := .ok []
  variantQuery := fun v =>
    if v = "\"system$user\"" then .ok [["a"], ["b"], ["c"]]
    else .error (.dbError "not found")
  dummyQuery := .ok [["u", "s"]]

/-- Like `goodOracle`, except that the namespace-discovery query raises. -/
def nsFailOracle : ProbeOracle :=
  { goodOracle with nsQuery := .error (.dbError "ns failed") }

/-- Like `goodOracle`, except that `dbapi.connect` raises. -/
def connFailOracle : ProbeOracle :=
  { goodOracle with connect := .error (.dbError "refused") }

/-- Like `goodOracle`, except that every target-table query raises a non-database
exception. -/
def raiseOracle : ProbeOracle :=
  { goodOracle with variantQuery := fun _ => .error (.otherExc "boom") }

/-- Like `goodOracle`, except that the first variant raises a `dbapi.Error` and
the second succeeds. -/
def secondVariantOracle : ProbeOracle :=
  { goodOracle with variantQuery := fun v =>
      if v = "SYSTEM$USER" then .ok [["x"]] else .error (.dbError "no") }

/-- C2: whenever credential resolution succeeds and the connection opens,
`conn.close()` is invoked on every exit path of `get_data_from_db` — for
every outcome of the namespace query, the variant queries and the fallback
query, including raised exceptions. -/
theorem c2_connection_always_closed (o : ProbeOracle)
    (hv : (fetch_vcap_services o.vcap).isSome = true)
    (hc : o.connect = Except.ok ()) :
    Ev.connClosed ∈ (get_data_from_db o).2 := by
  obtain ⟨ci, hf⟩ := Option.isSome_iff_exists.mp hv
  have hest : establish_connection o = (Except.ok (some ()), []) := by
    unfold establish_connection
    rw [hc]
  unfold get_data_from_db
  rw [hf, hest]
  cases hb : (probeBody o).1 with
  | ok rows => simp [hb]
  | error e => cases he : e.isException <;> simp [hb, he]

/-- Witness for C2: the target query raises a non-database exception and the
connection is still closed. -/
theorem c2_witness :
    (fetch_vcap_services raiseOracle.vcap).isSome = true ∧
    raiseOracle.connect = Except.ok () ∧
    Ev.connClosed ∈ (get_data_from_db raiseOracle).2 :=
  ⟨rfl, rfl, c2_connection_always_closed raiseOracle rfl rfl⟩

/-- C5 counterexample: when the namespace-discovery query raises, the probe
does NOT proceed to the table-name variants (contrary to the claim): the
variant query would have succeeded with three rows, yet no variant is
attempted and the probe returns empty. -/
theorem c5_counterexample :
    nsFailOracle.variantQuery "\"system$user\"" = Except.ok [["a"], ["b"], ["c"]] ∧
    (get_data_from_db nsFailOracle).1 = Except.ok [] ∧
    variantAttempts (get_data_from_db nsFailOracle).2 = [] :=
  ⟨rfl, rfl, rfl⟩

/-- C5 (amended): a failure of the namespace-discovery query is fatal to the
probe run — the exception propagates to the probe's top-level handler, no
table-name variant is attempted, the probe returns empty, and the connection
is still closed. -/
theorem c5_ns_failure_aborts (o : ProbeOracle) (e : Exc)
    (hv : (fetch_vcap_services o.vcap).isSome = true)
    (hc : o.connect = Except.ok ())
    (hns : o.nsQuery = Except.error e)
    (he : e.isException = true) :
    (get_data_from_db o).1 = Except.ok [] ∧
    variantAttempts (get_data_from_db o).2 = [] ∧
    Ev.connClosed ∈ (get_data_from_db o).2 := by
  obtain ⟨ci, hf⟩ := Option.isSome_iff_exists.mp hv
  have hest : establish_connection o = (Except.ok (some ()), []) := by
    unfold establish_connection
    rw [hc]
  have hpb : probeBody o = (Except.error e, [Ev.nsAttempted]) := by
    unfold probeBody
    rw [hns]
  unfold get_data_from_db
  rw [hf, hest]
  simp [hpb, he, variantAttempts]

/-- Witness for C5 (amended) at the concrete failing oracle. -/
theorem c5_witness :
    (fetch_vcap_services nsFailOracle.vcap).isSome = true ∧
    nsFailOracle.connect = Except.ok () ∧
    nsFailOracle.nsQuery = Except.error (Exc.dbError "ns failed") ∧
    (Exc.dbError "ns failed").isException = true ∧
    ((get_data_from_db nsFailOracle).1 = Except.ok [] ∧
     variantAttempts (get_data_from_db nsFailOracle).2 = [] ∧
     Ev.connClosed ∈ (get_data_from_db nsFailOracle).2) :=
  ⟨rfl, rfl, rfl, rfl,
    c5_ns_failure_aborts nsFailOracle (Exc.dbError "ns failed") rfl rfl rfl rfl⟩

/-- C4: the table-name variants are tried in listed order with
first-success-wins semantics: when the first variant fails with a database
error and the second succeeds, the probe returns the second variant's rows
and attempts exactly the first two variants. -/
theorem c4_variant_fallback (o : ProbeOracle) (ts r : List Row) (m : String)
    (hv : (fetch_vcap_services o.vcap).isSome = true)
    (hc : o.connect = Except.ok ())
    (hns : o.nsQuery = Except.ok ts)
    (h1 : o.variantQuery "\"system$user\"" = Except.error (Exc.dbError m))
    (h2 : o.variantQuery "SYSTEM$USER" = Except.ok r)
    (hr : r ≠ []) :
    (get_data_from_db o).1 = Except.ok r ∧
    variantAttempts (get_data_from_db o).2 =
      ["\"system$user\"", "SYSTEM$USER"] := by
  obtain ⟨ci, hf⟩ := Option.isSome_iff_exists.mp hv
  have hest : establish_connection o = (Except.ok (some ()), []) := by
    unfold establish_connection
    rw [hc]
  have htv : tryVariants o tableVariants =
      (Except.ok r,
       [Ev.variantTried "\"system$user\"", Ev.variantTried "SYSTEM$USER"]) := by
    unfold tableVariants
    simp [tryVariants, h1, h2, Exc.isDbError]
  have hre : r.isEmpty = false := by
    cases r with
    | nil => exact absurd rfl hr
    | cons a l => rfl
  have hpb : probeBody o =
      (Except.ok r,
       Ev.nsAttempted ::
         [Ev.variantTried "\"system$user\"", Ev.variantTried "SYSTEM$USER"]) := by
    unfold probeBody
    rw [hns, htv]
    simp [hre]
  unfold get_data_from_db
  rw [hf, hest]
  simp [hpb, variantAttempts]

/-- Witness for C4 at the concrete two-variant oracle. -/
theorem c4_witness :
    (fetch_vcap_services secondVariantOracle.vcap).isSome = true ∧
    secondVariantOracle.connect = Except.ok () ∧
    secondVariantOracle.nsQuery = Except.ok [] ∧
    secondVariantOracle.variantQuery "\"system$user\"" =
      Except.error (Exc.dbError "no") ∧
    secondVariantOracle.variantQuery "SYSTEM$USER" = Except.ok [["x"]] ∧
    ([["x"]] : List Row) ≠ [] ∧
    ((get_data_from_db secondVariantOracle).1 = Except.ok [["x"]] ∧
     variantAttempts (get_data_from_db secondVariantOracle).2 =
       ["\"system$user\"", "SYSTEM$USER"]) :=
  ⟨rfl, rfl, rfl, rfl, rfl, by decide,
    c4_variant_fallback secondVariantOracle [] [["x"]] "no" rfl rfl rfl rfl rfl
      (by decide)⟩

/-- C6 counterexample: iteration 1 succeeds (3 rows), iteration 2's
connection attempt throws, iteration 3 proceeds — but contrary to the claim
the loop never sleeps the 60-unit backoff: the connection error is swallowed
inside `establish_connection` and every iteration sleeps the normal
300-unit interval. -/
theorem c6_counterexample :
    (runSidecar [goodOracle, connFailOracle, goodOracle]).1 = 3 ∧
    (runSidecar [goodOracle, connFailOracle, goodOracle]).2.1 = false ∧
    Ev.sleptBackoff ∉ (runSidecar [goodOracle, connFailOracle, goodOracle]).2.2 ∧
    (runSidecar [goodOracle, connFailOracle, goodOracle]).2.2.count
      Ev.sleptNormal = 3 ∧
    Ev.rowsLogged 3 ∈ (runSidecar [goodOracle, connFailOracle, goodOracle]).2.2 := by
  refine ⟨rfl, rfl, by decide, rfl, by decide⟩

/-- C6 (amended): when an iteration's connection attempt throws, the error
is caught and logged inside `establish_connection`, the iteration completes
normally with no data (a no-data warning is logged), and the loop sleeps the
normal 300-unit interval before the next iteration proceeds; the 60-unit
backoff is reserved for exceptions that escape the iteration body. -/
theorem c6_connection_failure_normal_sleep (o : ProbeOracle)
    (rest : List ProbeOracle) (e : Exc)
    (hv : (fetch_vcap_services o.vcap).isSome = true)
    (hc : o.connect = Except.error e)
    (he : e.isException = true) :
    runSidecar (o :: rest) =
      ((runSidecar rest).1 + 1, (runSidecar rest).2.1,
       [Ev.connFailLogged, Ev.noConnLogged, Ev.noDataLogged, Ev.sleptNormal]
         ++ (runSidecar rest).2.2) := by
  obtain ⟨ci, hf⟩ := Option.isSome_iff_exists.mp hv
  have hest : establish_connection o = (Except.ok none, [Ev.connFailLogged]) := by
    unfold establish_connection
    rw [hc]
    simp [he]
  have hg : get_data_from_db o =
      (Except.ok [], [Ev.connFailLogged, Ev.noConnLogged]) := by
    unfold get_data_from_db
    rw [hf, hest]
    rfl
  have hld : log_data o =
      (Except.ok (), [Ev.connFailLogged, Ev.noConnLogged, Ev.noDataLogged]) := by
    unfold log_data
    rw [hg]
    rfl
  have hib : iterationBody o =
      (Except.ok (),
       [Ev.connFailLogged, Ev.noConnLogged, Ev.noDataLogged, Ev.sleptNormal]) := by
    unfold iterationBody
    rw [hld]
    rfl
  unfold runSidecar
  rw [List.map_cons, hib]
  rfl

/-- Witness for C6 (amended) at the concrete failing-connection oracle. -/
theorem c6_witness :
    (fetch_vcap_services connFailOracle.vcap).isSome = true ∧
    connFailOracle.connect = Except.error (Exc.dbError "refused") ∧
    (Exc.dbError "refused").isException = true ∧
    runSidecar [connFailOracle] =
      ((runSidecar []).1 + 1, (runSidecar []).2.1,
       [Ev.connFailLogged, Ev.noConnLogged, Ev.noDataLogged, Ev.sleptNormal]
         ++ (runSidecar []).2.2) :=
  ⟨rfl, rfl, rfl,
    c6_connection_failure_normal_sleep connFailOracle [] (Exc.dbError "refused")
      rfl rfl rfl⟩

/-- A loop prefix in which no iteration's body raises `KeyboardInterrupt`
consumes every iteration and then continues into the remainder, accumulating
iteration counts and events. -/
theorem runMain_append (l₁ l₂ : List IterResult)
    (h : ∀ p ∈ l₁, p.1 ≠ Except.error Exc.keyboardInterrupt) :
    runMain (l₁ ++ l₂) =
      ((runMain l₁).1 + (runMain l₂).1, (runMain l₂).2.1,
       (runMain l₁).2.2 ++ (runMain l₂).2.2) := by
  induction l₁ with
  | nil => simp [runMain]
  | cons p rest ih =>
    obtain ⟨r, evs⟩ := p
    have hrest : ∀ q ∈ rest, q.1 ≠ Except.error Exc.keyboardInterrupt :=
      fun q hq => h q (List.mem_cons_of_mem _ hq)
    cases r with
    | ok u =>
      simp [runMain, ih hrest, Prod.ext_iff, List.append_assoc]
      omega
    | error e =>
      have hr : Except.error e ≠
          (Except.error Exc.keyboardInterrupt : Except Exc Unit) :=
        h (Except.error e, evs) (List.mem_cons_self _ _)
      have hne : e ≠ Exc.keyboardInterrupt := by
        intro hh
        exact hr (by rw [hh])
      simp [runMain, hne, ih hrest, Prod.ext_iff, List.append_assoc]
      omega

/-- A run in which no iteration's body raises `KeyboardInterrupt` executes
every iteration and never terminates the loop. -/
theorem runMain_noKI (l : List IterResult)
    (h : ∀ p ∈ l, p.1 ≠ Except.error Exc.keyboardInterrupt) :
    (runMain l).1 = l.length ∧ (runMain l).2.1 = false := by
  induction l with
  | nil => simp [runMain]
  | cons p rest ih =>
    obtain ⟨r, evs⟩ := p
    have hrest : ∀ q ∈ rest, q.1 ≠ Except.error Exc.keyboardInterrupt :=
      fun q hq => h q (List.mem_cons_of_mem _ hq)
    cases r with
    | ok u => simp [runMain, ih hrest]
    | error e =>
      have hr : Except.error e ≠
          (Except.error Exc.keyboardInterrupt : Except Exc Unit) :=
        h (Except.error e, evs) (List.mem_cons_self _ _)
      have hne : e ≠ Exc.keyboardInterrupt := by
        intro hh
        exact hr (by rw [hh])
      simp [runMain, hne, ih hrest]

/-- C1: the poll loop never terminates because of a data, credential or
connection error.  For every run whose iterations before some point raise no
interrupt: an iteration whose body raises a non-interrupt exception is caught
at the iteration boundary, the error is logged, and the following iterations
all run (the loop is not terminated); whereas an iteration raising
`KeyboardInterrupt` ends the loop cleanly — it is the last iteration executed
and no iteration after it runs. -/
theorem c1_loop_survives_exceptions (pre post : List IterResult) (e : Exc)
    (evs evs2 : List Ev)
    (hpre : ∀ p ∈ pre, p.1 ≠ Except.error Exc.keyboardInterrupt)
    (he : e ≠ Exc.keyboardInterrupt) :
    ((runMain (pre ++ (Except.error e, evs) :: post)).1 =
        pre.length + 1 + (runMain post).1 ∧
     (runMain (pre ++ (Except.error e, evs) :: post)).2.1 =
        (runMain post).2.1 ∧
     Ev.errorLogged ∈ (runMain (pre ++ (Except.error e, evs) :: post)).2.2) ∧
    ((runMain (pre ++ (Except.error Exc.keyboardInterrupt, evs2) :: post)).1 =
        pre.length + 1 ∧
     (runMain (pre ++ (Except.error Exc.keyboardInterrupt, evs2) :: post)).2.1 =
        true) := by
  obtain ⟨hcount, hterm⟩ := runMain_noKI pre hpre
  have hhead : runMain ((Except.error e, evs) :: post) =
      ((runMain post).1 + 1, (runMain post).2.1,
       evs ++ [Ev.errorLogged, Ev.sleptBackoff] ++ (runMain post).2.2) := by
    simp [runMain, he]
  have hki : runMain ((Except.error Exc.keyboardInterrupt, evs2) :: post) =
      (1, true, evs2 ++ [Ev.interrupted]) := by
    simp [runMain]
  have ha := runMain_append pre ((Except.error e, evs) :: post) hpre
  have hb := runMain_append pre
    ((Except.error Exc.keyboardInterrupt, evs2) :: post) hpre
  rw [hhead] at ha
  rw [hki] at hb
  refine ⟨⟨?_, ?_, ?_⟩, ?_, ?_⟩
  · rw [ha, hcount]
    omega
  · rw [ha]
  · rw [ha]
    simp
  · rw [hb, hcount]
  · rw [hb]

/-- Witness for C1: one normal iteration, one iteration raising a database
error, one trailing iteration; and the interrupt variant. -/
theorem c1_witness :
    ((runMain (([(Except.ok (), [Ev.sleptNormal])] : List IterResult) ++
        (Except.error (Exc.dbError "down"), []) ::
        [(Except.ok (), [Ev.sleptNormal])])).1 =
      ([(Except.ok (), [Ev.sleptNormal])] : List IterResult).length + 1 +
        (runMain ([(Except.ok (), [Ev.sleptNormal])] : List IterResult)).1 ∧
     (runMain (([(Except.ok (), [Ev.sleptNormal])] : List IterResult) ++
        (Except.error (Exc.dbError "down"), []) ::
        [(Except.ok (), [Ev.sleptNormal])])).2.1 =
      (runMain ([(Except.ok (), [Ev.sleptNormal])] : List IterResult)).2.1 ∧
     Ev.errorLogged ∈
       (runMain (([(Except.ok (), [Ev.sleptNormal])] : List IterResult) ++
        (Except.error (Exc.dbError "down"), []) ::
        [(Except.ok (), [Ev.sleptNormal])])).2.2) ∧
    ((runMain (([(Except.ok (), [Ev.sleptNormal])] : List IterResult) ++
        (Except.error Exc.keyboardInterrupt, []) ::
        [(Except.ok (), [Ev.sleptNormal])])).1 =
      ([(Except.ok (), [Ev.sleptNormal])] : List IterResult).length + 1 ∧
     (runMain (([(Except.ok (), [Ev.sleptNormal])] : List IterResult) ++
        (Except.error Exc.keyboardInterrupt, []) ::
        [(Except.ok (), [Ev.sleptNormal])])).2.1 = true) :=
  c1_loop_survives_exceptions [(Except.ok (), [Ev.sleptNormal])]
    [(Except.ok (), [Ev.sleptNormal])] (Exc.dbError "down") [] []
    (by decide) (by decide)

/-- Reduction of `Except` bind on a success value. -/
theorem bindOk {α β : Type} (a : α) (f : α → Except Exc β) :
    (Except.ok a >>= f) = f a := rfl

/-- Reduction of `Except` bind on a raised exception. -/
theorem bindErr {α β : Type} (e : Exc) (f : α → Except Exc β) :
    ((Except.error e : Except Exc α) >>= f) = Except.error e := rfl

/-- Reduction of `Except` pure. -/
theorem pureOk {α : Type} (a : α) : (pure a : Except Exc α) = Except.ok a := rfl

/-- Reduction of `Except` map on a success value. -/
theorem mapOk {α β : Type} (a : α) (f : α → β) :
    (f <$> (Except.ok a : Except Exc α)) = Except.ok (f a) := rfl

/-- Reduction of `Except` map on a raised exception. -/
theorem mapErr {α β : Type} (e : Exc) (f : α → β) :
    (f <$> (Except.error e : Except Exc α)) = Except.error e := rfl

/-- A successful subscript implies the membership test succeeds. -/
theorem hasKey_of_getKey_ok (j : Json) (k : String) (v : Json)
    (h : j.getKey k = Except.ok v) : j.hasKey k = true := by
  cases j with
  | obj fields =>
    simp only [Json.getKey] at h
    simp only [Json.hasKey]
    cases hl : lookupField fields k with
    | none => rw [hl] at h; simp at h
    | some w => simp [hl]
  | null => simp [Json.getKey] at h
  | bool b => simp [Json.getKey] at h
  | num n => simp [Json.getKey] at h
  | str s => simp [Json.getKey] at h
  | arr es => simp [Json.getKey] at h

/-- C3: the Credential Resolver returns no connection parameters and raises
no exception when the `hana` kind is absent, when its binding sequence is
empty, or when a required credential field is missing from the first
binding; and on the specification's complete catalog it returns the first
binding's parameters with the port coerced to the integer 30015. -/
theorem c3_credential_resolver :
    (∀ j : Json, j.hasKey "hana" = false →
      fetch_vcap_services (some (ParseOutcome.parsed j)) = none) ∧
    (∀ j : Json, j.getKey "hana" = Except.ok (Json.arr []) →
      fetch_vcap_services (some (ParseOutcome.parsed j)) = none) ∧
    (∀ fields : List (String × Json),
      (lookupField fields "host" = none ∨ lookupField fields "port" = none ∨
       lookupField fields "user" = none ∨ lookupField fields "password" = none) →
      fetch_vcap_services
        (some (ParseOutcome.parsed (oneBindingCatalog fields))) = none) ∧
    fetch_vcap_services (some (ParseOutcome.parsed exampleCatalog)) =
      some { address := Json.str "db.local", port := 30015,
             user := Json.str "u", password := Json.str "p" } := by
  refine ⟨?_, ?_, ?_, rfl⟩
  · intro j h
    simp [fetch_vcap_services, fetchBody, h, pureOk]
  · intro j h
    have hk := hasKey_of_getKey_ok j "hana" (Json.arr []) h
    simp [fetch_vcap_services, fetchBody, hk, h, Json.truthy, bindOk, pureOk]
  · intro fields h
    have hstart : ∀ res : Except Exc (Option ConnectionInfo),
        fetchBody (oneBindingCatalog fields) = res →
        fetch_vcap_services
          (some (ParseOutcome.parsed (oneBindingCatalog fields))) =
          (match res with | .ok r => r | .error _ => none) := by
      intro res hres
      simp [fetch_vcap_services, hres]
    have hpre : fetchBody (oneBindingCatalog fields) =
        ((Json.obj fields).getKey "host" >>= fun host =>
         (Json.obj fields).getKey "port" >>= fun portJ =>
         pyInt portJ >>= fun port =>
         (Json.obj fields).getKey "user" >>= fun user =>
         (Json.obj fields).getKey "password" >>= fun pw =>
         Except.ok (some { address := host, port := port, user := user,
                           password := pw })) := by
      simp [fetchBody, oneBindingCatalog, Json.hasKey, Json.getKey,
        Json.truthy, Json.index0, lookupField, bindOk, pureOk]
    rcases h with h | h | h | h
    · rw [hstart _ rfl, hpre]
      simp [Json.getKey, h, bindErr]
    · cases hh : lookupField fields "host" with
      | none =>
        rw [hstart _ rfl, hpre]
        simp [Json.getKey, hh, bindErr]
      | some hostv =>
        rw [hstart _ rfl, hpre]
        simp [Json.getKey, hh, h, bindOk, bindErr]
    · cases hh : lookupField fields "host" with
      | none =>
        rw [hstart _ rfl, hpre]
        simp [Json.getKey, hh, bindErr]
      | some hostv =>
        cases hp : lookupField fields "port" with
        | none =>
          rw [hstart _ rfl, hpre]
          simp [Json.getKey, hh, hp, bindOk, bindErr]
        | some portv =>
          cases hpi : pyInt portv with
          | error ex =>
            rw [hstart _ rfl, hpre]
            simp [Json.getKey, hh, hp, hpi, bindOk, bindErr]
          | ok pn =>
            rw [hstart _ rfl, hpre]
            simp [Json.getKey, hh, hp, hpi, h, bindOk, bindErr]
    · cases hh : lookupField fields "host" with
      | none =>
        rw [hstart _ rfl, hpre]
        simp [Json.getKey, hh, bindErr]
      | some hostv =>
        cases hp : lookupField fields "port" with
        | none =>
          rw [hstart _ rfl, hpre]
          simp [Json.getKey, hh, hp, bindOk, bindErr]
        | some portv =>
          cases hpi : pyInt portv with
          | error ex =>
            rw [hstart _ rfl, hpre]
            simp [Json.getKey, hh, hp, hpi, bindOk, bindErr]
          | ok pn =>
            cases hu : lookupField fields "user" with
            | none =>
              rw [hstart _ rfl, hpre]
              simp [Json.getKey, hh, hp, hpi, hu, bindOk, bindErr]
            | some userv =>
              rw [hstart _ rfl, hpre]
              simp [Json.getKey, hh, hp, hpi, hu, h, bindOk, bindErr, mapErr]

/-- Witness for C3: the kind absent, an empty binding sequence, a missing
`host` field, and the specification's complete catalog. -/
theorem c3_witness :
    fetch_vcap_services (some (ParseOutcome.parsed (Json.obj []))) = none ∧
    fetch_vcap_services
      (some (ParseOutcome.parsed (Json.obj [("hana", Json.arr [])]))) = none ∧
    fetch_vcap_services
      (some (ParseOutcome.parsed (oneBindingCatalog [("port", Json.str "1")]))) =
      none ∧
    fetch_vcap_services (some (ParseOutcome.parsed exampleCatalog)) =
      some { address := Json.str "db.local", port := 30015,
             user := Json.str "u", password := Json.str "p" } :=
  ⟨c3_credential_resolver.1 (Json.obj []) rfl,
   c3_credential_resolver.2.1 (Json.obj [("hana", Json.arr [])]) rfl,
   c3_credential_resolver.2.2.1 [("port", Json.str "1")] (Or.inl rfl),
   c3_credential_resolver.2.2.2⟩

/-- Entry names the copy loop does not process keep their target value. -/
theorem copyItems_preserves (items : List (String × Entry)) (t : TargetDir)
    (n : String) (h : n ∉ items.map Prod.fst) :
    (copyItems items t).2.1 n = t n := by
  induction items generalizing t with
  | nil => rfl
  | cons p rest ih =>
    obtain ⟨name, e⟩ := p
    rw [List.map_cons] at h
    have hn : n ≠ name := fun hh => h (hh ▸ List.mem_cons_self _ _)
    have hrest : n ∉ rest.map Prod.fst := fun hh => h (List.mem_cons_of_mem _ hh)
    by_cases hh : isHidden name = true
    · have e1 : copyItems ((name, e) :: rest) t = copyItems rest t := by
        simp [copyItems, hh]
      rw [e1]
      exact ih _ hrest
    · cases e with
      | dir p m =>
        have e1 : (copyItems ((name, Entry.dir p m) :: rest) t).2.1 =
            (copyItems rest (setEntry t name (Entry.dir p m))).2.1 := by
          simp [copyItems, hh]
        rw [e1, ih _ hrest]
        simp [setEntry, hn]
      | file c m =>
        by_cases hd : isDirO (t name) = true
        · by_cases hv : name = "vendor"
          · subst hv
            have e1 : copyItems (("vendor", Entry.file c m) :: rest) t =
                (false, t, []) := by
              simp [copyItems, hh, hd]
            rw [e1]
          · have e1 : copyItems ((name, Entry.file c m) :: rest) t =
                copyItems rest t := by
              simp [copyItems, hh, hd, hv]
            rw [e1]
            exact ih _ hrest
        · have e1 : (copyItems ((name, Entry.file c m) :: rest) t).2.1 =
              (copyItems rest (setEntry t name (Entry.file c m))).2.1 := by
            simp [copyItems, hh, hd]
          rw [e1, ih _ hrest]
          simp [setEntry, hn]

/-- Re-running the copy loop on a post-processed result of a previous run
(for any directory-shape-preserving pointwise post-processing `pp`) takes the
same branches: the success flag agrees, and each entry is either re-set to
the same source value as in the first run or left untouched. -/
theorem copyItems_restage (pp : String → Option Entry → Option Entry)
    (hpp : ∀ n x, isDirO (pp n x) = isDirO x)
    (items : List (String × Entry)) :
    ∀ t t₂ : TargetDir, (items.map Prod.fst).Nodup →
    (∀ n, t₂ n = pp n ((copyItems items t).2.1 n) ∨
          t₂ n = (copyItems items t).2.1 n) →
    (copyItems items t₂).1 = (copyItems items t).1 ∧
    ∀ n, (copyItems items t₂).2.1 n = (copyItems items t).2.1 n ∨
         (copyItems items t₂).2.1 n = t₂ n := by
  induction items with
  | nil =>
    intro t t₂ hnd H
    exact ⟨rfl, fun n => Or.inr rfl⟩
  | cons p rest ih =>
    intro t t₂ hnd H
    obtain ⟨name, e⟩ := p
    rw [List.map_cons] at hnd
    have hnotin : name ∉ rest.map Prod.fst := (List.nodup_cons.mp hnd).1
    have hndr : (rest.map Prod.fst).Nodup := (List.nodup_cons.mp hnd).2
    by_cases hh : isHidden name = true
    · have e1 : copyItems ((name, e) :: rest) t = copyItems rest t := by
        simp [copyItems, hh]
      have e2 : copyItems ((name, e) :: rest) t₂ = copyItems rest t₂ := by
        simp [copyItems, hh]
      rw [e1] at H
      rw [e1, e2]
      exact ih t t₂ hndr H
    · cases e with
      | dir p m =>
        have e1b : (copyItems ((name, Entry.dir p m) :: rest) t).1 =
            (copyItems rest (setEntry t name (Entry.dir p m))).1 := by
          simp [copyItems, hh]
        have e1m : (copyItems ((name, Entry.dir p m) :: rest) t).2.1 =
            (copyItems rest (setEntry t name (Entry.dir p m))).2.1 := by
          simp [copyItems, hh]
        have e2b : (copyItems ((name, Entry.dir p m) :: rest) t₂).1 =
            (copyItems rest (setEntry t₂ name (Entry.dir p m))).1 := by
          simp [copyItems, hh]
        have e2m : (copyItems ((name, Entry.dir p m) :: rest) t₂).2.1 =
            (copyItems rest (setEntry t₂ name (Entry.dir p m))).2.1 := by
          simp [copyItems, hh]
        rw [e1m] at H
        have hT1name : (copyItems rest (setEntry t name (Entry.dir p m))).2.1 name =
            some (Entry.dir p m) := by
          rw [copyItems_preserves rest _ name hnotin]
          simp [setEntry]
        have Hs : ∀ n, setEntry t₂ name (Entry.dir p m) n =
            pp n ((copyItems rest (setEntry t name (Entry.dir p m))).2.1 n) ∨
            setEntry t₂ name (Entry.dir p m) n =
            (copyItems rest (setEntry t name (Entry.dir p m))).2.1 n := by
          intro n
          by_cases hn : n = name
          · subst hn
            refine Or.inr ?_
            rw [hT1name]
            simp [setEntry]
          · have hset : setEntry t₂ name (Entry.dir p m) n = t₂ n := by
              simp [setEntry, hn]
            rw [hset]
            exact H n
        obtain ⟨ihb, ihm⟩ := ih _ _ hndr Hs
        refine ⟨by rw [e1b, e2b]; exact ihb, ?_⟩
        intro n
        rw [e1m, e2m]
        rcases ihm n with hl | hr
        · exact Or.inl hl
        · by_cases hn : n = name
          · subst hn
            refine Or.inl ?_
            rw [hr, hT1name]
            simp [setEntry]
          · refine Or.inr ?_
            rw [hr]
            simp [setEntry, hn]
      | file c m =>
        by_cases hd : isDirO (t name) = true
        · by_cases hv : name = "vendor"
          · subst hv
            have e1 : copyItems (("vendor", Entry.file c m) :: rest) t =
                (false, t, []) := by
              simp [copyItems, hh, hd]
            rw [e1] at H
            have hd2 : isDirO (t₂ "vendor") = true := by
              rcases H "vendor" with h1 | h1
              · rw [h1, hpp]; exact hd
              · rw [h1]; exact hd
            have e2 : copyItems (("vendor", Entry.file c m) :: rest) t₂ =
                (false, t₂, []) := by
              simp [copyItems, hh, hd2]
            rw [e1, e2]
            exact ⟨rfl, fun n => Or.inr rfl⟩
          · have e1 : copyItems ((name, Entry.file c m) :: rest) t =
                copyItems rest t := by
              simp [copyItems, hh, hd, hv]
            rw [e1] at H
            have hT1name : (copyItems rest t).2.1 name = t name :=
              copyItems_preserves rest t name hnotin
            have hd2 : isDirO (t₂ name) = true := by
              rcases H name with h1 | h1
              · rw [h1, hpp, hT1name]; exact hd
              · rw [h1, hT1name]; exact hd
            have e2 : copyItems ((name, Entry.file c m) :: rest) t₂ =
                copyItems rest t₂ := by
              simp [copyItems, hh, hd2, hv]
            rw [e1, e2]
            exact ih t t₂ hndr H
        · have e1b : (copyItems ((name, Entry.file c m) :: rest) t).1 =
              (copyItems rest (setEntry t name (Entry.file c m))).1 := by
            simp [copyItems, hh, hd]
          have e1m : (copyItems ((name, Entry.file c m) :: rest) t).2.1 =
              (copyItems rest (setEntry t name (Entry.file c m))).2.1 := by
            simp [copyItems, hh, hd]
          rw [e1m] at H
          have hT1name :
              (copyItems rest (setEntry t name (Entry.file c m))).2.1 name =
              some (Entry.file c m) := by
            rw [copyItems_preserves rest _ name hnotin]
            simp [setEntry]
          have hd2 : isDirO (t₂ name) = false := by
            rcases H name with h1 | h1
            · rw [h1, hpp, hT1name]; rfl
            · rw [h1, hT1name]; rfl
          have e2b : (copyItems ((name, Entry.file c m) :: rest) t₂).1 =
              (copyItems rest (setEntry t₂ name (Entry.file c m))).1 := by
            simp [copyItems, hh, hd2]
          have e2m : (copyItems ((name, Entry.file c m) :: rest) t₂).2.1 =
              (copyItems rest (setEntry t₂ name (Entry.file c m))).2.1 := by
            simp [copyItems, hh, hd2]
          have Hs : ∀ n, setEntry t₂ name (Entry.file c m) n =
              pp n ((copyItems rest (setEntry t name (Entry.file c m))).2.1 n) ∨
              setEntry t₂ name (Entry.file c m) n =
              (copyItems rest (setEntry t name (Entry.file c m))).2.1 n := by
            intro n
            by_cases hn : n = name
            · subst hn
              refine Or.inr ?_
              rw [hT1name]
              simp [setEntry]
            · have hset : setEntry t₂ name (Entry.file c m) n = t₂ n := by
                simp [setEntry, hn]
              rw [hset]
              exact H n
          obtain ⟨ihb, ihm⟩ := ih _ _ hndr Hs
          refine ⟨by rw [e1b, e2b]; exact ihb, ?_⟩
          intro n
          rw [e1m, e2m]
          rcases ihm n with hl | hr
          · exact Or.inl hl
          · by_cases hn : n = name
            · subst hn
              refine Or.inl ?_
              rw [hr, hT1name]
              simp [setEntry]
            · refine Or.inr ?_
              rw [hr]
              simp [setEntry, hn]

/-- A second chmod changes nothing. -/
theorem chmodEntry_idem (x : Option Entry) :
    chmodEntry (chmodEntry x) = chmodEntry x := by
  cases x with
  | none => rfl
  | some e => cases e <;> rfl

/-- A second config write of the same content changes nothing. -/
theorem confEntry_idem (pid : String) (x : Option Entry) :
    confEntry pid (confEntry pid x) = confEntry pid x := by
  cases x with
  | none => rfl
  | some e => cases e <;> rfl

/-- chmod preserves whether the entry is a directory. -/
theorem isDirO_chmodEntry (x : Option Entry) :
    isDirO (chmodEntry x) = isDirO x := by
  cases x with
  | none => rfl
  | some e => cases e <;> rfl

/-- The config write preserves whether the entry is a directory. -/
theorem isDirO_confEntry (pid : String) (x : Option Entry) :
    isDirO (confEntry pid x) = isDirO x := by
  cases x with
  | none => rfl
  | some e => cases e <;> rfl

/-- The target directory produced by an enabled `stage` with an existing
source bundle, by branch. -/
theorem stage_fst (e : MeterEnv) (items : List (String × Entry))
    (meta : Option String) (u : TargetDir)
    (hen : _is_usage_metering_enabled e = true) :
    (stage e (some items) meta u).1 =
      (if (copyItems items u).1 = true then
        (match meta with
         | some pid => confAt pid (chmodAt (copyItems items u).2.1)
         | none => chmodAt (copyItems items u).2.1)
       else (copyItems items u).2.1) := by
  by_cases hb : (copyItems items u).1 = true
  · cases meta <;> simp [stage, _copy_custom_sidecar, hen, hb]
  · cases meta <;> simp [stage, _copy_custom_sidecar, hen, hb]

/-- C9: `stage` is idempotent on the target directory — with an unchanged
source bundle (whose listing has distinct entry names) and unchanged build
metadata, staging twice leaves every entry of the target identical to
staging once. -/
theorem c9_stage_idempotent (e : MeterEnv) (src : Option (List (String × Entry)))
    (meta : Option String) (t : TargetDir) (n : String)
    (h : sourceNodup src) :
    (stage e src meta (stage e src meta t).1).1 n = (stage e src meta t).1 n := by
  by_cases hen : _is_usage_metering_enabled e = true
  · cases src with
    | none => simp [stage, hen, _copy_custom_sidecar]
    | some items =>
      have hnd : (items.map Prod.fst).Nodup := h
      by_cases hb : (copyItems items t).1 = true
      · cases meta with
        | none =>
          have hs1 : (stage e (some items) none t).1 =
              chmodAt (copyItems items t).2.1 := by
            rw [stage_fst e items none t hen]
            simp [hb]
          obtain ⟨hb2, hm⟩ := copyItems_restage
            (fun nn x => if nn = binaryName then chmodEntry x else x)
            (by
              intro nn x
              show isDirO (if nn = binaryName then chmodEntry x else x) =
                isDirO x
              by_cases hx : nn = binaryName
              · rw [if_pos hx, isDirO_chmodEntry]
              · rw [if_neg hx])
            items t ((stage e (some items) none t).1) hnd
            (by
              intro nn
              rw [hs1]
              exact Or.inl rfl)
          have hb2t : (copyItems items ((stage e (some items) none t).1)).1 =
              true := by rw [hb2]; exact hb
          have hs2 : (stage e (some items) none
              ((stage e (some items) none t).1)).1 =
              chmodAt (copyItems items ((stage e (some items) none t).1)).2.1 := by
            rw [stage_fst e items none _ hen]
            simp [hb2t]
          rw [hs2]
          rcases hm n with hl | hr
          · have hcongr : chmodAt
                (copyItems items ((stage e (some items) none t).1)).2.1 n =
                chmodAt (copyItems items t).2.1 n := by
              simp only [chmodAt]
              rw [hl]
            rw [hcongr, hs1]
          · simp only [chmodAt]
            rw [hr]
            by_cases hx : n = binaryName
            · subst hx
              rw [if_pos rfl, hs1]
              simp [chmodAt, chmodEntry_idem]
            · rw [if_neg hx]
        | some pid =>
          have hcb : ¬ confName = binaryName := by decide
          have hs1 : (stage e (some items) (some pid) t).1 =
              confAt pid (chmodAt (copyItems items t).2.1) := by
            rw [stage_fst e items (some pid) t hen]
            simp [hb]
          obtain ⟨hb2, hm⟩ := copyItems_restage
            (fun nn x => if nn = confName then
                confEntry pid (if nn = binaryName then chmodEntry x else x)
              else if nn = binaryName then chmodEntry x else x)
            (by
              intro nn x
              show isDirO (if nn = confName then
                  confEntry pid (if nn = binaryName then chmodEntry x else x)
                else if nn = binaryName then chmodEntry x else x) = isDirO x
              by_cases hc : nn = confName
              · subst hc
                rw [if_pos rfl, if_neg hcb, isDirO_confEntry]
              · rw [if_neg hc]
                by_cases hx : nn = binaryName
                · rw [if_pos hx, isDirO_chmodEntry]
                · rw [if_neg hx])
            items t ((stage e (some items) (some pid) t).1) hnd
            (by
              intro nn
              rw [hs1]
              exact Or.inl rfl)
          have hb2t : (copyItems items
              ((stage e (some items) (some pid) t).1)).1 = true := by
            rw [hb2]; exact hb
          have hs2 : (stage e (some items) (some pid)
              ((stage e (some items) (some pid) t).1)).1 =
              confAt pid (chmodAt (copyItems items
                ((stage e (some items) (some pid) t).1)).2.1) := by
            rw [stage_fst e items (some pid) _ hen]
            simp [hb2t]
          rw [hs2]
          rcases hm n with hl | hr
          · have hcongr : confAt pid (chmodAt
                (copyItems items ((stage e (some items) (some pid) t).1)).2.1) n =
                confAt pid (chmodAt (copyItems items t).2.1) n := by
              simp only [confAt, chmodAt]
              rw [hl]
            rw [hcongr, hs1]
          · simp only [confAt, chmodAt]
            rw [hr]
            by_cases hc : n = confName
            · subst hc
              rw [if_pos rfl, if_neg hcb, hs1]
              simp [confAt, confEntry_idem]
            · by_cases hx : n = binaryName
              · subst hx
                rw [if_neg hc, if_pos rfl, hs1]
                simp [confAt, chmodAt, hc, chmodEntry_idem]
              · rw [if_neg hc, if_neg hx]
      · have hs1 : (stage e (some items) meta t).1 =
            (copyItems items t).2.1 := by
          rw [stage_fst e items meta t hen]
          simp [hb]
        obtain ⟨hb2, hm⟩ := copyItems_restage (fun _ x => x) (fun _ _ => rfl)
          items t ((stage e (some items) meta t).1) hnd
          (by
            intro nn
            rw [hs1]
            exact Or.inr rfl)
        have hb2f : ¬ (copyItems items ((stage e (some items) meta t).1)).1 =
            true := by
          rw [hb2]
          exact hb
        have hs2 : (stage e (some items) meta
            ((stage e (some items) meta t).1)).1 =
            (copyItems items ((stage e (some items) meta t).1)).2.1 := by
          rw [stage_fst e items meta _ hen]
          simp [hb2f]
        rw [hs2]
        rcases hm n with hl | hr
        · rw [hl, hs1]
        · rw [hr]
  · simp [stage, hen]

/-- Witness for C9 at a concrete enabled environment, two-entry bundle,
metadata and empty target, checked at the config entry. -/
theorem c9_witness :
    sourceNodup (some [("sidecar.py", Entry.file "code" 420),
      ("vendor", Entry.dir "libs" 493)]) ∧
    (stage (MeterEnv.mk none none (some "1"))
        (some [("sidecar.py", Entry.file "code" 420),
          ("vendor", Entry.dir "libs" 493)]) (some "pid1")
        (stage (MeterEnv.mk none none (some "1"))
          (some [("sidecar.py", Entry.file "code" 420),
            ("vendor", Entry.dir "libs" 493)]) (some "pid1")
          (fun _ => none)).1).1 "conf.json" =
    (stage (MeterEnv.mk none none (some "1"))
        (some [("sidecar.py", Entry.file "code" 420),
          ("vendor", Entry.dir "libs" 493)]) (some "pid1")
        (fun _ => none)).1 "conf.json" := by
  have hnd : sourceNodup (some [("sidecar.py", Entry.file "code" 420),
      ("vendor", Entry.dir "libs" 493)]) := by
    show (List.map Prod.fst [("sidecar.py", Entry.file "code" 420),
      ("vendor", Entry.dir "libs" 493)]).Nodup
    decide
  exact ⟨hnd, c9_stage_idempotent (MeterEnv.mk none none (some "1"))
    (some [("sidecar.py", Entry.file "code" 420),
      ("vendor", Entry.dir "libs" 493)]) (some "pid1") (fun _ => none)
    "conf.json" hnd⟩
